import Mathlib

/-!
Shallow embedding of the recommendation/search core of the learnflow
backend (`src/backend/services/recommendation_service.py`,
`src/backend/services/ml_service.py`, `src/backend/services/search_service.py`
and the task-recommendation route `src/backend/routes/tasks.py`),
together with theorems settling the specification claims.

Modelling conventions:
* MongoDB documents become Lean structures; a query set is the list of
  documents of the repository state (`DB`) filtered by the query predicate,
  in repository order; `order_by` is a stable sort (Python's `list.sort`
  and MongoDB sorts are modelled by the stable `stableSort`).
* Python floats are modelled by `ℚ`; timestamps by `ℕ`.
* `cosine_similarity` is represented by a strictly monotone rational image
  of the true cosine (see `cosineSim`), so every ordering / equality /
  sign statement about similarity values is preserved exactly; the
  `ValueError` it raises on vectors of different dimensions is modelled by
  `Except` (see `cosineSimE`).
* `try/except` blocks that swallow an error and return a default are
  modelled by matching on the `Except` value.
-/

namespace LearnFlow

/- The rational operations are `@[irreducible]` by default, which keeps the
`decide` tactic from evaluating concrete scores; the kernel itself can
unfold them, so re-marking them semireducible only lets evaluation
proceed. -/
attribute [local semireducible] Rat.add Rat.mul Rat.inv Rat.sub Rat.ofScientific

/-- `models/resource.py`: the fields of `Resource` read by the code under
verification, plus `id`.  `embedding` is `none` when the document does not
carry the field (`embedding__exists=False`). -/
structure Resource where
  id : String
  title : String
  description : String
  type : String
  difficulty : String
  tags : List String
  category : String
  likes : Nat
  views : Nat
  rating : Rat
  embedding : Option (List Rat)
  created_at : Nat
deriving DecidableEq

/-- `models/user.py`: the fields of `User` read by the code under
verification.  `interactions` keeps only the keys of the interaction map
(`resource_id`s); the code under verification reads only those keys. -/
structure User where
  id : String
  interests : List String
  skill_level : String
  interactions : List String
deriving DecidableEq

/-- `models/feedback.py` `Feedback`: references are modelled by the ids of
the referenced documents. -/
structure Feedback where
  user : String
  resource : String
  helpful : Bool
  created_at : Nat
deriving DecidableEq

/-- `models/notification.py` `Task` (fields read by the code under
verification).  `tags` is a `StringField` (a single string). -/
structure Task where
  task_id : String
  title : String
  description : String
  difficulty : String
  tags : String
  category : String
  skill_level : String
  is_active : Bool
  embedding : Option (List Rat)
deriving DecidableEq

/-- `models/feedback.py` `TaskFeedback`. -/
structure TaskFeedback where
  user : String
  task_id : String
  helpful : Bool
  difficulty_rating : Option Nat
deriving DecidableEq

/-- The repository state: the document collections, each in its natural
(repository) order. -/
structure DB where
  users : List User
  resources : List Resource
  feedbacks : List Feedback
  tasks : List Task
  task_feedbacks : List TaskFeedback
deriving DecidableEq

/-- Comparator for a descending stable sort on one key (`order_by('-k')`,
`sort(key=..., reverse=True)`): `a` may precede `b` iff `key b ≤ key a`. -/
def descLe {β : Type} [LinearOrder β] (x y : β) : Bool :=
  decide (y ≤ x)

/-- Stable insertion of `a` into `l`: `a` goes before the first element
that does not strictly precede it under `le`. -/
def insertStable {α : Type} (le : α → α → Bool) (a : α) : List α → List α
  | [] => [a]
  | b :: l => if le b a && !le a b then b :: insertStable le a l else a :: b :: l

/-- Stable sort with respect to the total preorder decided by `le`
(`le x y` = "x may come before y").  A stable sort's output is uniquely
determined by the preorder and the input order, so this models both
Python's `list.sort` / `sorted` and MongoDB's `order_by` (whose remaining
ties are taken in repository order). -/
def stableSort {α : Type} (le : α → α → Bool) : List α → List α
  | [] => []
  | a :: l => insertStable le a (stableSort le l)

/-- Comparator for a descending stable sort on two keys
(`order_by('-k1', '-k2')`). -/
def descPair (p q : Rat × Rat) : Bool :=
  decide (q.1 < p.1 ∨ (q.1 = p.1 ∧ q.2 ≤ p.2))

/-- `order_by('-rating', '-likes')`. -/
def byRatingLikes (a b : Resource) : Bool :=
  descPair (a.rating, (a.likes : Rat)) (b.rating, (b.likes : Rat))

/-- `order_by('-created_at', '-likes')`. -/
def byCreatedLikes (a b : Resource) : Bool :=
  descPair ((a.created_at : Rat), (a.likes : Rat)) ((b.created_at : Rat), (b.likes : Rat))

/-- Dot product of two equal-length vectors (`ℚ` stands for float). -/
def dotP (a b : List Rat) : Rat :=
  (List.zipWith (fun x y => x * y) a b).sum

/-- Model of `sklearn.metrics.pairwise.cosine_similarity` on two vectors of
the same dimension.  The source computes `d / (‖a‖ * ‖b‖)` with
`d = ⟨a, b⟩`; since the norms need square roots, the model represents the
similarity by its image under the strictly increasing injection
`x ↦ sign x * x ^ 2`, i.e. `sign d * d ^ 2 / (‖a‖² * ‖b‖²)`, which is a
rational number.  Ordering and equality of similarity values (all the code
ever uses them for) agree with the true cosine.  A zero vector yields 0,
as `sklearn` normalises zero norms to 1. -/
def cosineSim (a b : List Rat) : Rat :=
  let d := dotP a b
  let na := dotP a a
  let nb := dotP b b
  if na = 0 ∨ nb = 0 then 0
  else if d < 0 then -(d * d) / (na * nb) else d * d / (na * nb)

/-- `cosine_similarity` raises `ValueError` when the two vectors have
different dimensions; `Except` models the exception. -/
def cosineSimE (a b : List Rat) : Except Unit Rat :=
  if a.length = b.length then .ok (cosineSim a b) else .error ()

/-- `services/ml_service.py` `MLService`: the only state read by the code
under verification is `sentence_model`, modelled as `none` when the model
failed to load and otherwise as the (deterministic) text encoder. -/
structure MLService where
  sentence_model : Option (String → List Rat)

/-- One entry of the list built by `MLService.semantic_search`
(`{'resource': ..., 'similarity': ...}`). -/
structure SimResult where
  resource : Resource
  similarity : Rat
deriving DecidableEq

/-- The similarity loop of `MLService.semantic_search` (lines 49–57):
items whose `embedding` key is missing or falsy (empty) are skipped; a
dimension mismatch raises out of the whole loop. -/
def computeSimilarities (qe : List Rat) : List Resource → Except Unit (List SimResult)
  | [] => .ok []
  | r :: rest =>
    match r.embedding with
    | none => computeSimilarities qe rest
    | some e =>
      if e = [] then computeSimilarities qe rest
      else
        match cosineSimE qe e with
        | .error u => .error u
        | .ok s =>
          match computeSimilarities qe rest with
          | .error u => .error u
          | .ok tail => .ok ({ resource := r, similarity := s } :: tail)

/-- `MLService.semantic_search` (`services/ml_service.py` lines 39–65).
Returns `[]` when the model is unavailable or the candidate list is empty;
any exception inside the body (a malformed embedding) is caught by the
outer `except`, which also returns `[]`. -/
def MLService.semantic_search (svc : MLService) (query : String)
    (resource_embeddings : List Resource) (top_k : Nat) : List SimResult :=
  match svc.sentence_model with
  | none => []
  | some encode =>
    if resource_embeddings.isEmpty then []
    else
      match computeSimilarities (encode query) resource_embeddings with
      | .error _ => []
      | .ok sims =>
        (stableSort (fun a b => descLe a.similarity b.similarity) sims).take top_k

/-- ASCII lowercasing of one character (`str.lower()`; the corpus and all
query strings of the code under verification are ASCII). -/
def lowerChar (c : Char) : Char :=
  if 65 ≤ c.toNat ∧ c.toNat ≤ 90 then Char.ofNat (c.toNat + 32) else c

/-- Python `str.lower()` on ASCII strings. -/
def toLowerStr (s : String) : String :=
  String.mk (s.toList.map lowerChar)

/-- Python substring containment `needle in hay` on character lists. -/
def containsSub : List Char → List Char → Bool
  | [], needle => needle.isEmpty
  | hay@(_ :: t), needle => needle.isPrefixOf hay || containsSub t needle

/-- Python `needle in hay` for strings. -/
def strIn (needle hay : String) : Bool :=
  containsSub hay.toList needle.toList

/-- The accumulator pass of `splitWs`. -/
def splitWsAux : List Char → List Char → List String
  | [], acc => if acc.isEmpty then [] else [String.mk acc.reverse]
  | c :: rest, acc =>
    if c = ' ' then
      if acc.isEmpty then splitWsAux rest []
      else String.mk acc.reverse :: splitWsAux rest []
    else splitWsAux rest (c :: acc)

/-- Python `str.split()`: split on whitespace, dropping empty pieces
(the space character is the only whitespace in the modelled corpus). -/
def splitWs (s : String) : List String :=
  splitWsAux s.toList []

/-- One formatted search-result dict of `services/search_service.py`
(either a semantic result carrying `similarity_score` or a keyword result
carrying `search_score`, both with a reason string). -/
structure SearchResult where
  resource : Resource
  score : Rat
  reason : String
deriving DecidableEq

/-- The per-resource score of `SearchService.keyword_search`
(`services/search_service.py` lines 57–85). -/
def keywordScore (keywords : List String) (query_lower : String) (r : Resource) : Nat :=
  let title_matches := keywords.countP (fun k => strIn k (toLowerStr r.title))
  let desc_matches := keywords.countP (fun k => strIn k (toLowerStr r.description))
  let tags_lower := r.tags.map toLowerStr
  let tag_matches := (keywords.map (fun k => tags_lower.countP (fun t => strIn k t))).sum
  title_matches * 3 + desc_matches * 2 + tag_matches * 2 +
    (if r.category ≠ "" ∧ strIn query_lower (toLowerStr r.category) then 2 else 0)

/-- The reason string of `SearchService.keyword_search`. -/
def keywordReason (keywords : List String) (query_lower : String) (r : Resource) : String :=
  let title_matches := keywords.countP (fun k => strIn k (toLowerStr r.title))
  let desc_matches := keywords.countP (fun k => strIn k (toLowerStr r.description))
  let tags_lower := r.tags.map toLowerStr
  let tag_matches := (keywords.map (fun k => tags_lower.countP (fun t => strIn k t))).sum
  String.intercalate "; "
    ((if title_matches > 0 then ["Title matches: " ++ toString title_matches] else []) ++
     (if desc_matches > 0 then ["Description matches: " ++ toString desc_matches] else []) ++
     (if tag_matches > 0 then ["Tag matches: " ++ toString tag_matches] else []) ++
     (if r.category ≠ "" ∧ strIn query_lower (toLowerStr r.category) then ["Category match"] else []))

/-- `SearchService.keyword_search` (`services/search_service.py` lines
45–98): score every resource, keep the strictly positive ones, sort by
score descending (stable) and return the first `limit`. -/
def SearchService.keyword_search (db : DB) (query : String) (limit : Nat) : List SearchResult :=
  let query_lower := toLowerStr query
  let keywords := splitWs query_lower
  let scored := (db.resources.filter (fun r => 0 < keywordScore keywords query_lower r)).map
    (fun r => { resource := r, score := (keywordScore keywords query_lower r : Rat),
                reason := keywordReason keywords query_lower r })
  (stableSort (fun a b => descLe a.score b.score) scored).take limit

/-- `SearchService.semantic_search` (`services/search_service.py` lines
10–43): resources carrying an `embedding` field are handed to
`MLService.semantic_search`; when none carries one, fall back to
`keyword_search`.  (The reason string's two-decimal float formatting is
rendered with `toString`.)  No exception can escape the modelled body, so
the `except` fallback branch is unreachable. -/
def SearchService.semantic_search (svc : MLService) (db : DB) (query : String)
    (limit : Nat) : List SearchResult :=
  let resources := db.resources.filter (fun r => r.embedding.isSome)
  if resources.isEmpty then SearchService.keyword_search db query limit
  else
    (svc.semantic_search query resources limit).map
      (fun sr => { resource := sr.resource, score := sr.similarity,
                   reason := "Semantic match (score: " ++ toString sr.similarity ++ ")" })

/-- One recommendation dict of `services/recommendation_service.py`
(resource snapshot plus `recommendation_score` and
`recommendation_reason`). -/
structure Recommendation where
  resource : Resource
  recommendation_score : Rat
  recommendation_reason : String
deriving DecidableEq

/-- `len(set(resource.tags) & set(user_interests))`: the number of
distinct tags also occurring among the interests. -/
def interestOverlap (tags interests : List String) : Nat :=
  ((tags.filter (fun t => t ∈ interests)).dedup).length

/-- The score computed by the loop body of
`RecommendationService._apply_content_based_filtering`
(`services/recommendation_service.py` lines 136–152). -/
def contentScore (user : User) (r : Resource) : Rat :=
  (if 0 < interestOverlap r.tags user.interests
     then (interestOverlap r.tags user.interests : Rat) * 2 else 0) +
    (if r.difficulty = user.skill_level then 3 else 0) +
    r.rating + min ((r.likes : Rat) / 10) 2

/-- The reason string of the same loop
(`'; '.join(reasons) or 'Popular content'`). -/
def contentReason (user : User) (r : Resource) : String :=
  let overlap := interestOverlap r.tags user.interests
  let joined := String.intercalate "; "
    ((if 0 < overlap then ["Matches " ++ toString overlap ++ " of your interests"] else []) ++
     (if r.difficulty = user.skill_level then ["Matches your skill level"] else []))
  if joined = "" then "Popular content" else joined

/-- `RecommendationService._apply_content_based_filtering`
(`services/recommendation_service.py` lines 127–165): consider the first
`limit * 2` candidates, keep those with a strictly positive score, sort by
score descending (stable) and return the first `limit`. -/
def RecommendationService.apply_content_based_filtering (user : User)
    (resources : List Resource) (limit : Nat) : List Recommendation :=
  let recommendations := ((resources.take (limit * 2)).filter
      (fun r => 0 < contentScore user r)).map
    (fun r => { resource := r, recommendation_score := contentScore user r,
                recommendation_reason := contentReason user r })
  (stableSort
      (fun a b => descLe a.recommendation_score b.recommendation_score)
      recommendations).take limit

/-- The `resource_scores` accumulation of
`RecommendationService._apply_collaborative_filtering` (lines 98–103): an
insertion-ordered association list counting occurrences of each resource
id (`resource_scores[rid] += 1`). -/
def bumpScore (scores : List (String × Nat)) (rid : String) : List (String × Nat) :=
  if scores.any (fun p => p.1 = rid) then
    scores.map (fun p => if p.1 = rid then (p.1, p.2 + 1) else p)
  else scores ++ [(rid, 1)]

/-- The peer-user ids of `_apply_collaborative_filtering` (lines 80–86):
users sharing at least one interest and the skill level, capped at 50 by
the query *before* the requesting user's own id is dropped. -/
def similarUserIds (db : DB) (user : User) : List String :=
  (((db.users.filter (fun u => u.interests.any (fun i => i ∈ user.interests) &&
      u.skill_level = user.skill_level)).take 50).map (fun u => u.id)).filter
    (fun i => i ≠ user.id)

/-- The `liked_feedback` query of `_apply_collaborative_filtering`
(lines 92–95): helpful feedback of the peer users, newest first. -/
def likedFeedback (db : DB) (user : User) : List Feedback :=
  stableSort (fun a b => descLe a.created_at b.created_at)
    (db.feedbacks.filter (fun f => f.user ∈ similarUserIds db user && f.helpful))

/-- `RecommendationService._apply_collaborative_filtering`
(`services/recommendation_service.py` lines 75–125).  The `resources`
argument is accepted and ignored, exactly as in the source.  Python's
`sorted(..., reverse=True)` is a stable descending sort on the count. -/
def RecommendationService.apply_collaborative_filtering (db : DB) (user : User)
    (resources : List Resource) (limit : Nat) : List Recommendation :=
  let similar_user_ids := similarUserIds db user
  if similar_user_ids.isEmpty then []
  else
    let liked_feedback := likedFeedback db user
    let resource_scores := liked_feedback.foldl (fun sc f => bumpScore sc f.resource) []
    let sorted_resources :=
      (stableSort (fun a b => descLe a.2 b.2) resource_scores).take limit
    sorted_resources.filterMap (fun p =>
      (db.resources.find? (fun r => r.id = p.1)).map (fun r =>
        { resource := r, recommendation_score := (p.2 : Rat),
          recommendation_reason := "Users with similar interests liked this" }))

/-- The optional request filters of
`RecommendationService.get_personalized_recommendations`.  A key that is
present but empty is falsy in Python, hence `filterTruthy` below. -/
structure Filters where
  type : Option (List String)
  difficulty : Option (List String)
  topics : Option (List String)
  sortBy : Option String
deriving DecidableEq

/-- Python truthiness of `filters.get(key)` for a list-valued filter. -/
def filterTruthy : Option (List String) → Bool
  | none => false
  | some l => !l.isEmpty

/-- The MongoDB query built by
`RecommendationService.get_personalized_recommendations` (lines 24–46), as
a predicate on resources.  `__in` on the list field `tags` means
"some tag lies in the given list"; `id__nin` excludes the listed ids. -/
def personalizedQueryPred (user : User) (filters : Option Filters) (r : Resource) : Bool :=
  let fType := match filters with | none => none | some f => f.type
  let fDifficulty := match filters with | none => none | some f => f.difficulty
  let fTopics := match filters with | none => none | some f => f.topics
  (!filterTruthy fType || r.type ∈ fType.getD []) &&
  (!filterTruthy fDifficulty || r.difficulty ∈ fDifficulty.getD []) &&
  (!filterTruthy fTopics || r.tags.any (fun t => t ∈ fTopics.getD [])) &&
  (filterTruthy fDifficulty || r.difficulty = user.skill_level) &&
  (user.interests.isEmpty || filterTruthy fTopics ||
    r.tags.any (fun t => t ∈ user.interests)) &&
  (user.interactions.isEmpty || r.id ∉ user.interactions)

/-- `RecommendationService._sort_recommendations` (lines 167–183). -/
def RecommendationService.sort_recommendations (recommendations : List Recommendation)
    (sort_by : String) : List Recommendation :=
  if sort_by = "rating" then
    stableSort (fun a b => descLe a.resource.rating b.resource.rating) recommendations
  else if sort_by = "likes" then
    stableSort (fun a b => descLe a.resource.likes b.resource.likes) recommendations
  else if sort_by = "newest" then
    stableSort (fun a b => descLe a.resource.created_at b.resource.created_at)
      recommendations
  else if sort_by = "relevance" then
    stableSort (fun a b => descLe a.recommendation_score b.recommendation_score)
      recommendations
  else recommendations

/-- `RecommendationService.get_personalized_recommendations`
(`services/recommendation_service.py` lines 12–73): query candidates,
run collaborative filtering, top up with content-based filtering when the
collaborative stage returned fewer than `limit`, optionally re-sort, and
truncate to `limit`. -/
def RecommendationService.get_personalized_recommendations (db : DB) (user : User)
    (limit : Nat) (filters : Option Filters) : List Recommendation :=
  let resources := stableSort byRatingLikes
    (db.resources.filter (personalizedQueryPred user filters))
  let recommendations :=
    RecommendationService.apply_collaborative_filtering db user resources limit
  let recommendations :=
    if recommendations.length < limit then
      recommendations ++ RecommendationService.apply_content_based_filtering user resources
        (limit - recommendations.length)
    else recommendations
  let recommendations :=
    match filters with
    | some f =>
      match f.sortBy with
      | some s =>
        if s ≠ "" then RecommendationService.sort_recommendations recommendations s
        else recommendations
      | none => recommendations
    | none => recommendations
  recommendations.take limit

/-- One iteration of the append loops of strategies 2 and 3 of
`RecommendationService.get_cold_start_recommendations` (lines 233–243 and
250–260): once `cap` additions were made, the loop has broken; a course
whose id is already among the accumulated recommendations is skipped. -/
def addUniqueStep (cap : Nat) (score : Rat) (reason : String)
    (st : List Recommendation × Nat) (c : Resource) : List Recommendation × Nat :=
  if cap ≤ st.2 then st
  else if st.1.any (fun r => r.resource.id = c.id) then st
  else (st.1 ++ [{ resource := c, recommendation_score := score,
                   recommendation_reason := reason }], st.2 + 1)

/-- The append loops of strategies 2 and 3 of
`RecommendationService.get_cold_start_recommendations`: walk the
candidate courses, stop after `cap` additions, and skip a course whose id
is already among the accumulated recommendations. -/
def addUniqueCourses (recommendations : List Recommendation) (courses : List Resource)
    (cap : Nat) (score : Rat) (reason : String) : List Recommendation :=
  (courses.foldl (addUniqueStep cap score reason) (recommendations, 0)).1

/-- `RecommendationService.get_cold_start_recommendations`
(`services/recommendation_service.py` lines 211–266).  The `user`
parameter is accepted and never read, exactly as in the source. -/
def RecommendationService.get_cold_start_recommendations (db : DB) (user : User)
    (limit : Nat) : List Recommendation :=
  let beginner_limit := max 1 (limit / 3)
  let beginner_courses := (stableSort byRatingLikes (db.resources.filter
      (fun r => r.difficulty = "Beginner"))).take beginner_limit
  let recommendations := beginner_courses.map (fun c =>
    { resource := c, recommendation_score := 5.0,
      recommendation_reason := "Great for beginners" })
  let popular_limit := max 1 (limit / 3)
  let popular_courses := (stableSort byRatingLikes db.resources).take (popular_limit * 2)
  let recommendations :=
    addUniqueCourses recommendations popular_courses popular_limit 4.0
      "Highly rated by learners"
  let remaining := limit - recommendations.length
  let recommendations :=
    if 0 < remaining then
      let recent_courses := (stableSort byCreatedLikes db.resources).take (remaining * 2)
      addUniqueCourses recommendations recent_courses remaining 3.0 "Trending content"
    else recommendations
  recommendations.take limit

/-- One task dict returned by the route `get_recommended_tasks`
(`routes/tasks.py`): the task snapshot, the completion flag, the ML score
when produced by the ML path (`round(score, 3)` display rounding omitted)
and the reason string. -/
structure TaskRec where
  task : Task
  completed : Bool
  ml_score : Option Rat
  recommendation_reason : String
deriving DecidableEq

/-- `TaskFeedback.objects(user=current_user)` as used by the route. -/
def userFeedback (db : DB) (u : User) : List TaskFeedback :=
  db.task_feedbacks.filter (fun f => f.user = u.id)

/-- `interest_query` of `routes/tasks.py` line 78. -/
def interestQuery (u : User) : String :=
  if u.interests.isEmpty then "learning programming"
  else String.intercalate " " u.interests

/-- One iteration of the feedback-boost loop (`routes/tasks.py` lines
103–111): a helpful feedback record whose task exists and has a truthy
(non-empty) embedding contributes `0.3 *` its similarity to the candidate
task's embedding; a dimension mismatch raises. -/
def boostStep (db : DB) (task_embedding : List Rat) (acc : Rat)
    (f : TaskFeedback) : Except Unit Rat :=
  if f.helpful then
    match db.tasks.find? (fun t => t.task_id = f.task_id) with
    | some similar_task =>
      match similar_task.embedding with
      | some e =>
        if e ≠ [] then do
          let feedback_similarity ← cosineSimE task_embedding e
          pure (acc + feedback_similarity * 0.3)
        else pure acc
      | none => pure acc
    | none => pure acc
  else pure acc

/-- The per-task score of the ML path of `get_recommended_tasks`
(`routes/tasks.py` lines 96–121): semantic similarity of the task
embedding to the interest-query embedding, plus the feedback boost, plus
a `0.1` bonus for a matching skill level.  Any dimension mismatch raises,
which the per-task `except` of the source turns into skipping the task. -/
def taskScoreE (db : DB) (u : User) (qe : List Rat) (feedback_data : List TaskFeedback)
    (task : Task) : Except Unit Rat := do
  let task_embedding := task.embedding.getD []
  let similarity ← cosineSimE qe task_embedding
  let feedback_boost ← feedback_data.foldlM (boostStep db task_embedding) (0 : Rat)
  let skill_bonus : Rat := if task.skill_level = u.skill_level then 0.1 else 0
  pure (similarity + feedback_boost + skill_bonus)

/-- The scoring loop of the ML path (`routes/tasks.py` lines 92–121):
tasks already present in the user's feedback history are skipped, a task
whose scoring raises is skipped (per-task `except`), the rest are
appended in iteration order with their score. -/
def scoreTasks (db : DB) (u : User) (qe : List Rat) (feedback_data : List TaskFeedback)
    (completed_task_ids : List String) : List Task → List (Task × Rat)
  | [] => []
  | t :: rest =>
    if t.task_id ∈ completed_task_ids then
      scoreTasks db u qe feedback_data completed_task_ids rest
    else
      match taskScoreE db u qe feedback_data t with
      | .error _ => scoreTasks db u qe feedback_data completed_task_ids rest
      | .ok s => (t, s) :: scoreTasks db u qe feedback_data completed_task_ids rest

/-- The `task_scores` list of the ML path (`routes/tasks.py` lines
89–121): active tasks carrying an embedding, minus tasks already present
in the user's feedback history, each paired with its score. -/
def taskScores (db : DB) (u : User) (qe : List Rat) : List (Task × Rat) :=
  scoreTasks db u qe (userFeedback db u) ((userFeedback db u).map (fun f => f.task_id))
    (db.tasks.filter (fun t => t.is_active && t.embedding.isSome))

/-- `task_dict['completed']` / `user_feedback` lookup of the route. -/
def taskCompleted (db : DB) (u : User) (task_id : String) : Bool :=
  (db.task_feedbacks.find? (fun f => f.user = u.id && f.task_id = task_id)).isSome

/-- The ML branch of `get_recommended_tasks` (`routes/tasks.py` lines
62–140): `[]` when the model is unavailable (the raised exception is
caught and leaves `tasks` empty) or when no active task carries an
embedding; otherwise the 15 highest-scoring tasks, sorted by score
descending (stable). -/
def mlRecommendedTasks (svc : MLService) (db : DB) (u : User) : List TaskRec :=
  match svc.sentence_model with
  | none => []
  | some encode =>
    let all_tasks := db.tasks.filter (fun t => t.is_active && t.embedding.isSome)
    if all_tasks.isEmpty then []
    else
      let qe := encode (interestQuery u)
      let sorted := stableSort (fun a b => descLe a.2 b.2) (taskScores db u qe)
      (sorted.take 15).map (fun p =>
        { task := p.1, completed := taskCompleted db u p.1.task_id,
          ml_score := some p.2,
          recommendation_reason :=
            "ML-recommended based on your interests and learning patterns" })

/-- The append step shared by fallback strategies 1 and 2 of the route
(lines 150–158 and 195–203): only while fewer than 15 tasks are
accumulated, and only when the task id is not already present. -/
def appendTaskCapped (db : DB) (u : User) (tasks : List TaskRec) (t : Task)
    (reason : String) : List TaskRec :=
  if tasks.length < 15 then
    if tasks.any (fun x => x.task.task_id = t.task_id) then tasks
    else tasks ++ [{ task := t, completed := taskCompleted db u t.task_id,
                     ml_score := none, recommendation_reason := reason }]
  else tasks

/-- Fallback strategy 1 (`routes/tasks.py` lines 144–158): for each
interest, tasks whose category equals the interest verbatim. -/
def fallbackStrategy1 (db : DB) (u : User) (tasks0 : List TaskRec) : List TaskRec :=
  if !u.interests.isEmpty then
    u.interests.foldl (fun tasks interest =>
      ((db.tasks.filter (fun t => t.category = interest && t.is_active)).take 10).foldl
        (fun tasks t =>
          appendTaskCapped db u tasks t (interest ++ " task based on your interest"))
        tasks) tasks0
  else tasks0

/-- The hard-wired interest→category mapping of fallback strategy 2
(lines 162–179); the tag lists collected alongside are never used by the
source afterwards, so only the categories are modelled. -/
def interestMapping : List (String × String) :=
  [("web development", "Web Development"), ("data science", "Data Science"),
   ("python", "Python"), ("machine learning", "Machine Learning")]

/-- Fallback strategy 2 (`routes/tasks.py` lines 160–203): runs only when
fewer than 10 tasks were accumulated; for each interest, each mapping key
occurring as a substring of the lowercased interest contributes its
category, and up to 3 active tasks per matched category are appended. -/
def fallbackStrategy2 (db : DB) (u : User) (tasks0 : List TaskRec) : List TaskRec :=
  if tasks0.length < 10 ∧ !u.interests.isEmpty then
    u.interests.foldl (fun tasks interest =>
      let interest_lower := toLowerStr interest
      let matched_categories :=
        (interestMapping.filter (fun kv => strIn kv.1 interest_lower)).map (fun kv => kv.2)
      matched_categories.foldl (fun tasks category =>
        ((db.tasks.filter (fun t => t.category = category && t.is_active)).take 3).foldl
          (fun tasks t =>
            appendTaskCapped db u tasks t (category ++ " task for " ++ interest))
          tasks) tasks) tasks0
  else tasks0

/-- The skill-level fill of the fallback (`routes/tasks.py` lines
205–228): when fewer than 15 tasks are accumulated, fill the remaining
slots with active tasks of the user's skill level, excluding ids already
selected (no per-item duplicate check is needed because of the
exclusion). -/
def fallbackSkillFill (db : DB) (u : User) (tasks0 : List TaskRec) : List TaskRec :=
  if tasks0.length < 15 then
    let existing_task_ids := tasks0.map (fun t => t.task.task_id)
    let remaining_slots := 15 - tasks0.length
    let default_tasks := (db.tasks.filter (fun t =>
      t.is_active && t.skill_level = u.skill_level &&
      (tasks0.isEmpty || t.task_id ∉ existing_task_ids))).take remaining_slots
    tasks0 ++ default_tasks.map (fun t =>
      { task := t, completed := taskCompleted db u t.task_id, ml_score := none,
        recommendation_reason := "Suitable for " ++ u.skill_level ++ " level" })
  else tasks0

/-- The reason string of the final fill (`routes/tasks.py` lines
246–254), chosen from substring checks on the lowercased tag string. -/
def finalFillReason (t : Task) : String :=
  let tags_lower := toLowerStr t.tags
  if strIn "python" tags_lower ∨ strIn "programming" tags_lower then
    "Great for learning programming fundamentals"
  else if strIn "machine-learning" tags_lower ∨ strIn "ml" tags_lower then
    "Build your ML skills"
  else if strIn "data" tags_lower ∨ strIn "visualization" tags_lower then
    "Develop data analysis skills"
  else "Popular learning task"

/-- The final fill of the route (`routes/tasks.py` lines 230–256),
applied on every path: when fewer than 10 tasks are accumulated, append
any active tasks not already selected, up to 15 total. -/
def finalFill (db : DB) (u : User) (tasks0 : List TaskRec) : List TaskRec :=
  if tasks0.length < 10 then
    let remaining_slots := 15 - tasks0.length
    let existing_task_ids := tasks0.map (fun t => t.task.task_id)
    let fallback_tasks := (db.tasks.filter (fun t =>
      t.is_active && (tasks0.isEmpty || t.task_id ∉ existing_task_ids))).take remaining_slots
    tasks0 ++ fallback_tasks.map (fun t =>
      { task := t, completed := taskCompleted db u t.task_id, ml_score := none,
        recommendation_reason := finalFillReason t })
  else tasks0

/-- The route `get_recommended_tasks` (`routes/tasks.py` lines 43–267):
the ML branch, then — only when it produced nothing — the fallback
strategies, then the unconditional final fill. -/
def get_recommended_tasks (svc : MLService) (db : DB) (u : User) : List TaskRec :=
  let tasks := mlRecommendedTasks svc db u
  let tasks :=
    if tasks.isEmpty then
      fallbackSkillFill db u (fallbackStrategy2 db u (fallbackStrategy1 db u []))
    else tasks
  finalFill db u tasks

/-! ### General lemmas about the sorting comparators -/

theorem descLe_key_trans {α β : Type} [LinearOrder β] (key : α → β) :
    ∀ a b c : α, descLe (key a) (key b) → descLe (key b) (key c) →
      descLe (key a) (key c) := by
  intro a b c hab hbc
  simp only [descLe, decide_eq_true_eq] at hab hbc ⊢
  exact le_trans hbc hab

theorem descLe_key_total {α β : Type} [LinearOrder β] (key : α → β) :
    ∀ a b : α, descLe (key a) (key b) || descLe (key b) (key a) := by
  intro a b
  simp only [descLe, Bool.or_eq_true, decide_eq_true_eq]
  exact le_total (key b) (key a)

theorem mem_insertStable {α : Type} (le : α → α → Bool) (a x : α) (l : List α) :
    x ∈ insertStable le a l ↔ x = a ∨ x ∈ l := by
  induction l with
  | nil => simp [insertStable]
  | cons b t ih =>
    simp only [insertStable]
    by_cases h : (le b a && !le a b) = true
    · rw [if_pos h]
      simp only [List.mem_cons, ih]
      tauto
    · rw [if_neg h]
      simp only [List.mem_cons]

theorem insertStable_perm {α : Type} (le : α → α → Bool) (a : α) (l : List α) :
    (insertStable le a l).Perm (a :: l) := by
  induction l with
  | nil => simp [insertStable]
  | cons b t ih =>
    simp only [insertStable]
    by_cases h : (le b a && !le a b) = true
    · rw [if_pos h]
      exact (ih.cons b).trans (List.Perm.swap a b t)
    · rw [if_neg h]

theorem stableSort_perm {α : Type} (le : α → α → Bool) (l : List α) :
    (stableSort le l).Perm l := by
  induction l with
  | nil => simp [stableSort]
  | cons a t ih =>
    exact (insertStable_perm le a (stableSort le t)).trans (ih.cons a)

theorem pairwise_insertStable {α : Type} (le : α → α → Bool)
    (htrans : ∀ a b c, le a b → le b c → le a c)
    (htotal : ∀ a b, le a b || le b a) (a : α) (l : List α)
    (hl : l.Pairwise (fun x y => le x y = true)) :
    (insertStable le a l).Pairwise (fun x y => le x y = true) := by
  induction l with
  | nil => simp [insertStable]
  | cons b t ih =>
    rw [List.pairwise_cons] at hl
    obtain ⟨hb, ht⟩ := hl
    simp only [insertStable]
    by_cases h : (le b a && !le a b) = true
    · rw [if_pos h]
      rw [Bool.and_eq_true, Bool.not_eq_true'] at h
      refine List.pairwise_cons.2 ⟨?_, ih ht⟩
      intro y hy
      rcases (mem_insertStable le a y t).1 hy with rfl | hy
      · exact h.1
      · exact hb y hy
    · rw [if_neg h]
      have hab : le a b = true := by
        cases hab : le a b with
        | true => rfl
        | false =>
          exfalso
          cases hba : le b a with
          | true => exact h (by rw [hba, hab]; rfl)
          | false =>
            have := htotal a b
            rw [hab, hba] at this
            exact absurd this (by decide)
      refine List.pairwise_cons.2 ⟨?_, List.pairwise_cons.2 ⟨hb, ht⟩⟩
      intro y hy
      rcases List.mem_cons.1 hy with rfl | hy
      · exact hab
      · exact htrans a b y hab (hb y hy)

theorem pairwise_stableSort {α : Type} (le : α → α → Bool)
    (htrans : ∀ a b c, le a b → le b c → le a c)
    (htotal : ∀ a b, le a b || le b a) (l : List α) :
    (stableSort le l).Pairwise (fun x y => le x y = true) := by
  induction l with
  | nil => simp [stableSort]
  | cons a t ih => exact pairwise_insertStable le htrans htotal a _ ih

/-- A stable descending sort on a key yields a list that is non-increasing
on that key. -/
theorem pairwise_key_stableSort {α β : Type} [LinearOrder β] (key : α → β) (l : List α) :
    (stableSort (fun a b => descLe (key a) (key b)) l).Pairwise
      (fun a b => key b ≤ key a) := by
  have h := pairwise_stableSort (fun a b => descLe (key a) (key b))
    (descLe_key_trans key) (descLe_key_total key) l
  exact h.imp (fun hab => by simpa [descLe] using hab)

/-! ### C10: cold start never reads the user -/

/-- C10 (confirmed): `get_cold_start_recommendations` never reads its
`user` argument — for any two user profiles and the same repository state
and limit it returns identical results, so its output depends only on the
resource repository and the limit. -/
theorem cold_start_ignores_user (db : DB) (u1 u2 : User) (limit : Nat) :
    RecommendationService.get_cold_start_recommendations db u1 limit =
      RecommendationService.get_cold_start_recommendations db u2 limit := rfl

/-! ### C1: orchestrator output size and duplicates -/

/-- C1 (amended): the list returned by
`get_personalized_recommendations` has length at most `limit`. -/
theorem personalized_recommendations_length_le (db : DB) (user : User) (limit : Nat)
    (filters : Option Filters) :
    (RecommendationService.get_personalized_recommendations db user limit filters).length
      ≤ limit := by
  unfold RecommendationService.get_personalized_recommendations
  exact List.length_take_le _ _

/-- A concrete repository state on which the orchestrator output contains
the same resource id twice: the collaborative stage picks resource `r1`
from a peer's helpful feedback, and the content-based top-up stage picks
`r1` again, so the claim "no two entries with the same item id" fails. -/
def dupDB : DB :=
  { users := [{ id := "u1", interests := ["python"], skill_level := "Beginner",
                interactions := [] },
              { id := "u2", interests := ["python"], skill_level := "Beginner",
                interactions := [] }],
    resources := [{ id := "r1", title := "Python 101", description := "intro",
                    type := "course", difficulty := "Beginner", tags := ["python"],
                    category := "Python", likes := 0, views := 0, rating := 4,
                    embedding := none, created_at := 0 }],
    feedbacks := [{ user := "u2", resource := "r1", helpful := true, created_at := 0 }],
    tasks := [], task_feedbacks := [] }

/-- The requesting user of the duplicate counterexample. -/
def dupUser : User :=
  { id := "u1", interests := ["python"], skill_level := "Beginner", interactions := [] }

/-- C1 (counterexample): with `dupDB` and `limit = 2` the orchestrator
returns the resource id `r1` twice — once from the collaborative stage
(score 1) and once from the content-based stage (score 9) — refuting
"contains no two entries with the same item id". -/
theorem personalized_recommendations_duplicate :
    (RecommendationService.get_personalized_recommendations dupDB dupUser 2 none).map
        (fun rec => (rec.resource.id, rec.recommendation_score)) =
      [("r1", 1), ("r1", 9)] := by decide

/-! ### C2: the content-based score formula -/

/-- The content-based score as the specification (§4.3) states it:
`2·|item.tags ∩ profile.interests|`, plus `3` when the difficulty equals
the profile's skill level, plus the rating, plus the likes bonus capped at
2. -/
def specContentScore (item : Resource) (profile : User) : Rat :=
  2 * (((item.tags.inter profile.interests).dedup).length : Rat) +
    (if item.difficulty = profile.skill_level then 3 else 0) +
    item.rating + min ((item.likes : Rat) / 10) 2

theorem contentScore_eq_spec (user : User) (r : Resource) :
    contentScore user r = specContentScore r user := by
  have hov : ((r.tags.inter user.interests).dedup).length =
      interestOverlap r.tags user.interests := by
    simp [interestOverlap, List.inter]
  unfold contentScore specContentScore
  rw [hov]
  rcases Nat.eq_zero_or_pos (interestOverlap r.tags user.interests) with h | h
  · rw [h]
    norm_num
  · rw [if_pos h]
    ring

theorem mem_content_based_filtering (user : User) (resources : List Resource)
    (limit : Nat) (rec : Recommendation)
    (hrec : rec ∈ RecommendationService.apply_content_based_filtering user resources limit) :
    rec.recommendation_score = contentScore user rec.resource ∧
      0 < contentScore user rec.resource := by
  simp only [RecommendationService.apply_content_based_filtering] at hrec
  have hsort := List.mem_of_mem_take hrec
  rw [(stableSort_perm _ _).mem_iff] at hsort
  obtain ⟨r, hr, hrrec⟩ := List.mem_map.1 hsort
  obtain ⟨hrmem, hcond⟩ := List.mem_filter.1 hr
  subst hrrec
  refine ⟨rfl, ?_⟩
  simpa using hcond

/-- C2 (confirmed): every entry of the content-based results carries
exactly the score `2·|tags ∩ interests| + 3·[difficulty = skill_level] +
rating + min(likes/10, 2)` of its resource, and that score is strictly
positive — so an item whose score is not positive never appears. -/
theorem content_based_score_is_spec_formula (user : User) (resources : List Resource)
    (limit : Nat) (rec : Recommendation)
    (hrec : rec ∈ RecommendationService.apply_content_based_filtering user resources limit) :
    rec.recommendation_score = specContentScore rec.resource user ∧
      0 < specContentScore rec.resource user := by
  obtain ⟨heq, hpos⟩ := mem_content_based_filtering user resources limit rec hrec
  rw [contentScore_eq_spec] at heq hpos
  exact ⟨heq, hpos⟩

/-- The single entry produced by the content-based stage on `dupDB`. -/
def cbRec : Recommendation :=
  { resource := { id := "r1", title := "Python 101", description := "intro",
                  type := "course", difficulty := "Beginner", tags := ["python"],
                  category := "Python", likes := 0, views := 0, rating := 4,
                  embedding := none, created_at := 0 },
    recommendation_score := 9,
    recommendation_reason := "Matches 1 of your interests; Matches your skill level" }

/-- C2 (witness): the theorem applied to a concrete repository state. -/
theorem content_based_score_is_spec_formula_witness :
    cbRec.recommendation_score = specContentScore cbRec.resource dupUser ∧
      0 < specContentScore cbRec.resource dupUser :=
  content_based_score_is_spec_formula dupUser dupDB.resources 1 cbRec (by decide)

/-! ### C3: similarity search ordering -/

/-- C3 (amended): `MLService.semantic_search` returns at most `top_k`
results, sorted non-increasing by similarity.  (Candidates with equal
similarity keep the candidate-list order — the sort is stable — rather
than being reordered by (rating desc, likes desc, id asc); see the
counterexample.) -/
theorem semantic_search_length_sorted (svc : MLService) (query : String)
    (resource_embeddings : List Resource) (top_k : Nat) :
    (svc.semantic_search query resource_embeddings top_k).length ≤ top_k ∧
      (svc.semantic_search query resource_embeddings top_k).Pairwise
        (fun a b => b.similarity ≤ a.similarity) := by
  unfold MLService.semantic_search
  cases svc.sentence_model with
  | none => simp
  | some encode =>
    by_cases hemp : resource_embeddings.isEmpty
    · simp [hemp]
    · simp only [hemp, Bool.false_eq_true, if_false]
      cases computeSimilarities (encode query) resource_embeddings with
      | error u => simp
      | ok sims =>
        refine ⟨List.length_take_le _ _, ?_⟩
        exact List.Pairwise.sublist (List.take_sublist _ _)
          (pairwise_key_stableSort (fun s => s.similarity) sims)

/-- First tied candidate: the lower-rated resource, listed first. -/
def tieResA : Resource :=
  { id := "b", title := "A", description := "", type := "article",
    difficulty := "Beginner", tags := [], category := "", likes := 0, views := 0,
    rating := 1, embedding := some [1, 0], created_at := 0 }

/-- Second tied candidate: higher rating, more likes, smaller id. -/
def tieResB : Resource :=
  { id := "a", title := "B", description := "", type := "article",
    difficulty := "Beginner", tags := [], category := "", likes := 9, views := 0,
    rating := 5, embedding := some [1, 0], created_at := 0 }

/-- An available model encoding every text to `[1, 0]`. -/
def tieSvc : MLService := { sentence_model := some (fun _ => [1, 0]) }

/-- C3 (counterexample): both candidates have the same similarity to the
query, yet the result keeps them in candidate order — the lower-rated,
fewer-liked, larger-id resource `b` stays first — refuting the claimed
(rating desc, likes desc, id asc) tie-break, which would put `a` first. -/
theorem semantic_search_tie_keeps_input_order :
    (MLService.semantic_search tieSvc "q" [tieResA, tieResB] 10).map
        (fun s => (s.resource.id, s.similarity)) = [("b", 1), ("a", 1)] ∧
      tieResA.rating < tieResB.rating ∧ tieResA.likes < tieResB.likes := by
  refine ⟨by decide, by decide, by decide⟩

/-! ### C8: behaviour of `SearchService.semantic_search` without a model -/

/-- The unavailable-model service (`SentenceTransformer` failed to load). -/
def noModelSvc : MLService := { sentence_model := none }

/-- C8 (amended): when the embedding model is unavailable,
`SearchService.semantic_search` completes without failure; it falls back
to keyword matching exactly when no stored resource carries an embedding,
and otherwise returns the empty list (because `MLService.semantic_search`
silently returns `[]` instead of raising, the keyword fallback in the
`except` branch is never reached). -/
theorem semantic_search_no_model (db : DB) (query : String) (limit : Nat) :
    SearchService.semantic_search noModelSvc db query limit =
      (if (db.resources.filter (fun r => r.embedding.isSome)).isEmpty then
        SearchService.keyword_search db query limit
      else []) := by
  unfold SearchService.semantic_search MLService.semantic_search noModelSvc
  by_cases h : (db.resources.filter (fun r => r.embedding.isSome)).isEmpty
  · simp [h]
  · simp [h]

/-- A repository state with one embedded resource matching the query
"python" by keyword. -/
def c8db : DB :=
  { users := [], feedbacks := [], tasks := [], task_feedbacks := [],
    resources := [{ id := "r1", title := "Python Basics", description := "learn python",
                    type := "course", difficulty := "Beginner", tags := ["python"],
                    category := "Python", likes := 3, views := 0, rating := 4,
                    embedding := some [1, 0], created_at := 0 }] }

/-- C8 (counterexample): with the model unavailable and a non-empty corpus
whose resources carry embeddings, `semantic_search` returns the empty
list even though the keyword fallback would have returned results — so
"falls back to keyword matching and still returns a non-empty result set"
fails. -/
theorem semantic_search_no_model_returns_empty :
    SearchService.semantic_search noModelSvc c8db "python" 10 = [] ∧
      c8db.resources ≠ [] ∧
      SearchService.keyword_search c8db "python" 10 ≠ [] := by
  refine ⟨by decide, by decide, by decide⟩

/-! ### C9: a malformed embedding aborts the whole similarity query -/

theorem computeSimilarities_error (qe : List Rat) (resources : List Resource)
    (r : Resource) (e : List Rat) (hr : r ∈ resources) (he : r.embedding = some e)
    (hne : e ≠ []) (hlen : e.length ≠ qe.length) :
    computeSimilarities qe resources = .error () := by
  induction resources with
  | nil => cases hr
  | cons x rest ih =>
    rcases List.mem_cons.1 hr with rfl | hr
    · simp only [computeSimilarities, he, if_neg hne]
      have : cosineSimE qe e = .error () := by
        unfold cosineSimE
        rw [if_neg (fun hq => hlen hq.symm)]
      rw [this]
    · have herr := ih hr
      simp only [computeSimilarities, herr]
      cases x.embedding with
      | none => rfl
      | some e2 =>
        dsimp only
        by_cases he2 : e2 = []
        · rw [if_pos he2]
        · rw [if_neg he2]
          cases cosineSimE qe e2 <;> rfl

/-- C9 (amended): when any candidate carries a non-empty embedding whose
dimension differs from the query embedding's, `MLService.semantic_search`
catches the raised error and returns the empty list — the whole query
yields no results (well-formed candidates included), though no exception
reaches the caller. -/
theorem malformed_embedding_empties_search (encode : String → List Rat) (query : String)
    (resources : List Resource) (top_k : Nat) (r : Resource) (e : List Rat)
    (hr : r ∈ resources) (he : r.embedding = some e) (hne : e ≠ [])
    (hlen : e.length ≠ (encode query).length) :
    MLService.semantic_search { sentence_model := some encode } query resources top_k
      = [] := by
  unfold MLService.semantic_search
  have hemp : resources.isEmpty = false := by
    cases resources with
    | nil => cases hr
    | cons a l => rfl
  dsimp only
  rw [hemp, computeSimilarities_error (encode query) resources r e hr he hne hlen]
  simp

/-- A well-formed candidate (embedding of the query dimension 2). -/
def wellRes : Resource :=
  { id := "w", title := "Good", description := "", type := "article",
    difficulty := "Beginner", tags := [], category := "", likes := 0, views := 0,
    rating := 2, embedding := some [1, 0], created_at := 0 }

/-- A malformed candidate: non-empty embedding of the wrong dimension. -/
def badRes : Resource :=
  { id := "x", title := "Bad", description := "", type := "article",
    difficulty := "Beginner", tags := [], category := "", likes := 0, views := 0,
    rating := 3, embedding := some [1, 0, 0], created_at := 0 }

/-- C9 (counterexample): with the malformed candidate present the whole
query returns `[]`, while without it the well-formed candidate is
returned — so the malformed item is not merely "excluded with the query
continuing over the remaining items": the well-formed candidate's result
is lost too. -/
theorem malformed_embedding_not_isolated :
    MLService.semantic_search tieSvc "q" [wellRes, badRes] 10 = [] ∧
      (MLService.semantic_search tieSvc "q" [wellRes] 10).map
        (fun s => s.resource.id) = ["w"] := by
  refine ⟨by decide, by decide⟩

/-- C9 (witness): the amended theorem applied to the concrete inputs. -/
theorem malformed_embedding_empties_search_witness :
    MLService.semantic_search { sentence_model := some (fun _ => [1, 0]) } "q"
      [wellRes, badRes] 10 = [] :=
  malformed_embedding_empties_search (fun _ => [1, 0]) "q" [wellRes, badRes] 10
    badRes [1, 0, 0] (by decide) (by decide) (by decide) (by decide)

/-! ### C6: collaborative filtering -/

theorem foldl_bumpScore_count (fbs : List Feedback) :
    ∀ (scores : List (String × Nat)) (processed : List Feedback),
      (∀ p ∈ scores, p.2 = processed.countP (fun f => f.resource = p.1)) →
      (∀ f ∈ processed, scores.any (fun p => p.1 = f.resource) = true) →
      ∀ p ∈ fbs.foldl (fun sc f => bumpScore sc f.resource) scores,
        p.2 = (processed ++ fbs).countP (fun f => f.resource = p.1) := by
  induction fbs with
  | nil =>
    intro scores processed h1 h2 p hp
    simpa using h1 p hp
  | cons x rest ih =>
    intro scores processed h1 h2 p hp
    have hstep1 : ∀ q ∈ bumpScore scores x.resource,
        q.2 = (processed ++ [x]).countP (fun f => f.resource = q.1) := by
      intro q hq
      unfold bumpScore at hq
      by_cases hany : scores.any (fun p => p.1 = x.resource) = true
      · rw [if_pos hany] at hq
        obtain ⟨q0, hq0, hq0eq⟩ := List.mem_map.1 hq
        by_cases hkey : q0.1 = x.resource
        · rw [if_pos hkey] at hq0eq
          subst hq0eq
          have hc : ([x].countP (fun f => decide (f.resource = q0.1))) = 1 := by
            simp [hkey.symm]
          simp [List.countP_append, hc, ← h1 q0 hq0]
        · rw [if_neg hkey] at hq0eq
          subst hq0eq
          have hxq : ¬(x.resource = q0.1) := fun h => hkey h.symm
          have hc : ([x].countP (fun f => decide (f.resource = q0.1))) = 0 := by
            simp [hxq]
          simp [List.countP_append, hc, ← h1 q0 hq0]
      · rw [if_neg hany] at hq
        rcases List.mem_append.1 hq with hq | hq
        · have hkey : ¬(q.1 = x.resource) := by
            intro hk
            exact hany (List.any_eq_true.2 ⟨q, hq, by simpa using hk⟩)
          have hxq : ¬(x.resource = q.1) := fun h => hkey h.symm
          have hc : ([x].countP (fun f => decide (f.resource = q.1))) = 0 := by
            simp [hxq]
          simp [List.countP_append, hc, ← h1 q hq]
        · have hq' : q = (x.resource, 1) := by simpa using hq
          subst hq'
          have hzero : processed.countP (fun f => decide (f.resource = x.resource)) = 0 := by
            by_contra hpos
            obtain ⟨f, hf, hfr⟩ := List.countP_pos_iff.1 (Nat.pos_of_ne_zero hpos)
            have hfr' : f.resource = x.resource := by simpa using hfr
            exact hany (by
              have := h2 f hf
              rw [hfr'] at this
              exact this)
          simp [List.countP_append, hzero, List.countP_cons]
    have hstep2 : ∀ f ∈ processed ++ [x],
        (bumpScore scores x.resource).any (fun p => p.1 = f.resource) = true := by
      intro f hf
      unfold bumpScore
      by_cases hany : scores.any (fun p => p.1 = x.resource) = true
      · rw [if_pos hany]
        have hkeys : ∀ p0 ∈ scores, ∃ q ∈ scores.map
            (fun p => if p.1 = x.resource then (p.1, p.2 + 1) else p), q.1 = p0.1 := by
          intro p0 hp0
          refine ⟨(if p0.1 = x.resource then (p0.1, p0.2 + 1) else p0),
            List.mem_map.2 ⟨p0, hp0, rfl⟩, ?_⟩
          by_cases hk : p0.1 = x.resource
          · rw [if_pos hk]
          · rw [if_neg hk]
        rcases List.mem_append.1 hf with hf | hf
        · obtain ⟨p0, hp0, hp0r⟩ := List.any_eq_true.1 (h2 f hf)
          obtain ⟨q, hqmem, hqkey⟩ := hkeys p0 hp0
          refine List.any_eq_true.2 ⟨q, hqmem, ?_⟩
          rw [hqkey]
          exact hp0r
        · have hf' : f = x := by simpa using hf
          subst hf'
          obtain ⟨p0, hp0, hp0r⟩ := List.any_eq_true.1 hany
          obtain ⟨q, hqmem, hqkey⟩ := hkeys p0 hp0
          refine List.any_eq_true.2 ⟨q, hqmem, ?_⟩
          rw [hqkey]
          exact hp0r
      · rw [if_neg hany]
        rcases List.mem_append.1 hf with hf | hf
        · obtain ⟨p0, hp0, hp0r⟩ := List.any_eq_true.1 (h2 f hf)
          exact List.any_eq_true.2 ⟨p0, List.mem_append_left _ hp0, hp0r⟩
        · have hf2 : f = x := by simpa using hf
          exact List.any_eq_true.2 ⟨(x.resource, 1),
            List.mem_append_right _ (by simp), by simp [hf2]⟩
    have hres := ih (bumpScore scores x.resource) (processed ++ [x]) hstep1 hstep2 p
      (by simpa using hp)
    simpa [List.append_assoc] using hres

/-- C6 (amended): in collaborative filtering, an empty peer group yields
an empty result (not an error); each recommended item's score is the
count of helpful feedback records from peer-group members (users sharing
an interest and the skill level, minus the requesting user, with the cap
of 50 applied before dropping the requesting user) referencing that item;
and the results are sorted by that count descending.  (Items the
requesting user has already interacted with are *not* excluded — see the
counterexample.) -/
theorem collaborative_filtering_spec (db : DB) (user : User)
    (resources : List Resource) (limit : Nat) :
    (similarUserIds db user = [] →
      RecommendationService.apply_collaborative_filtering db user resources limit = []) ∧
    (∀ rec ∈ RecommendationService.apply_collaborative_filtering db user resources limit,
      rec.recommendation_score =
        (((db.feedbacks.filter (fun f => f.user ∈ similarUserIds db user && f.helpful)).countP
          (fun f => f.resource = rec.resource.id) : Nat) : Rat)) ∧
    (RecommendationService.apply_collaborative_filtering db user resources limit).Pairwise
      (fun a b => b.recommendation_score ≤ a.recommendation_score) := by
  refine ⟨?_, ?_, ?_⟩
  · intro hids
    unfold RecommendationService.apply_collaborative_filtering
    rw [hids]
    rfl
  · intro rec hrec
    unfold RecommendationService.apply_collaborative_filtering at hrec
    by_cases hids : (similarUserIds db user).isEmpty
    · rw [if_pos hids] at hrec
      cases hrec
    · rw [if_neg hids] at hrec
      obtain ⟨p, hp, hpeq⟩ := List.mem_filterMap.1 hrec
      obtain ⟨r, hr, hreq⟩ := Option.map_eq_some'.1 hpeq
      have hrid : r.id = p.1 := by simpa using List.find?_some hr
      have hpmem : p ∈ (likedFeedback db user).foldl
          (fun sc f => bumpScore sc f.resource) [] :=
        (stableSort_perm _ _).mem_iff.1 (List.mem_of_mem_take hp)
      have hcount := foldl_bumpScore_count (likedFeedback db user) [] []
        (by intro q hq; cases hq) (by intro f hf; cases hf) p hpmem
      have hcount' : p.2 = (db.feedbacks.filter
          (fun f => f.user ∈ similarUserIds db user && f.helpful)).countP
          (fun f => f.resource = p.1) := by
        rw [hcount]
        simp only [List.nil_append]
        unfold likedFeedback
        exact (stableSort_perm _ _).countP_eq _
      subst hreq
      simp only [hrid.symm] at hcount' ⊢
      rw [hcount']
  · unfold RecommendationService.apply_collaborative_filtering
    by_cases hids : (similarUserIds db user).isEmpty
    · rw [if_pos hids]
      exact List.Pairwise.nil
    · rw [if_neg hids]
      refine List.Pairwise.filterMap _ ?_
        (List.Pairwise.sublist (List.take_sublist _ _)
          (pairwise_key_stableSort (fun p => p.2) _))
      intro a b hab x hx y hy
      obtain ⟨ra, hra, hxa⟩ := Option.map_eq_some'.1 hx
      obtain ⟨rb, hrb, hyb⟩ := Option.map_eq_some'.1 hy
      subst hxa
      subst hyb
      simpa using Nat.cast_le.2 hab

/-- A repository state in which the requesting user has already
interacted with resource `r1`, and a peer has marked `r1` helpful. -/
def cfDB : DB :=
  { users := [{ id := "u1", interests := ["python"], skill_level := "Beginner",
                interactions := ["r1"] },
              { id := "u2", interests := ["python"], skill_level := "Beginner",
                interactions := [] }],
    resources := [{ id := "r1", title := "Python 101", description := "intro",
                    type := "course", difficulty := "Beginner", tags := ["python"],
                    category := "Python", likes := 0, views := 0, rating := 4,
                    embedding := none, created_at := 0 }],
    feedbacks := [{ user := "u2", resource := "r1", helpful := true, created_at := 0 }],
    tasks := [], task_feedbacks := [] }

/-- The requesting user of `cfDB`, who has interacted with `r1`. -/
def cfUser : User :=
  { id := "u1", interests := ["python"], skill_level := "Beginner",
    interactions := ["r1"] }

/-- C6 (counterexample): collaborative filtering recommends `r1` even
though the requesting user has already interacted with it — the claimed
exclusion of already-interacted items does not happen (the `resources`
argument that carries the exclusion is ignored). -/
theorem collaborative_returns_interacted_item :
    (RecommendationService.apply_collaborative_filtering cfDB cfUser [] 10).map
        (fun rec => rec.resource.id) = ["r1"] ∧
      "r1" ∈ cfUser.interactions := by
  refine ⟨by decide, by decide⟩

/-- The single entry returned by collaborative filtering on `cfDB`. -/
def cfRec : Recommendation :=
  { resource := { id := "r1", title := "Python 101", description := "intro",
                  type := "course", difficulty := "Beginner", tags := ["python"],
                  category := "Python", likes := 0, views := 0, rating := 4,
                  embedding := none, created_at := 0 },
    recommendation_score := 1,
    recommendation_reason := "Users with similar interests liked this" }

/-- C6 (witness): the score-equals-count part of the theorem applied to a
concrete repository state. -/
theorem collaborative_filtering_spec_witness :
    cfRec.recommendation_score =
      (((cfDB.feedbacks.filter
          (fun f => f.user ∈ similarUserIds cfDB cfUser && f.helpful)).countP
        (fun f => f.resource = cfRec.resource.id) : Nat) : Rat) :=
  (collaborative_filtering_spec cfDB cfUser [] 10).2.1 cfRec (by decide)

/-! ### C7: cold-start blending -/

theorem addUnique_foldl_nodup (courses : List Resource) :
    ∀ (cap : Nat) (score : Rat) (reason : String) (st : List Recommendation × Nat),
      (st.1.map (fun r => r.resource.id)).Nodup →
      (((courses.foldl (addUniqueStep cap score reason) st).1).map
        (fun r => r.resource.id)).Nodup := by
  induction courses with
  | nil =>
    intro cap score reason st h
    simpa using h
  | cons c rest ih =>
    intro cap score reason st h
    rw [List.foldl_cons]
    apply ih
    unfold addUniqueStep
    by_cases h1 : cap ≤ st.2
    · rw [if_pos h1]
      exact h
    · rw [if_neg h1]
      by_cases h2 : st.1.any (fun r => r.resource.id = c.id) = true
      · rw [if_pos h2]
        exact h
      · rw [if_neg h2]
        simp only [List.map_append, List.map_cons, List.map_nil]
        rw [List.nodup_append]
        refine ⟨h, List.nodup_singleton _, ?_⟩
        intro a ha hb
        have ha' : a = c.id := by simpa using hb
        subst ha'
        obtain ⟨r, hr, hrid⟩ := List.mem_map.1 ha
        exact h2 (List.any_eq_true.2 ⟨r, hr, by simpa using hrid⟩)

theorem addUnique_foldl_mem (courses : List Resource) :
    ∀ (cap : Nat) (score : Rat) (reason : String) (st : List Recommendation × Nat),
      ∀ rec ∈ (courses.foldl (addUniqueStep cap score reason) st).1,
        rec ∈ st.1 ∨ rec.recommendation_score = score := by
  induction courses with
  | nil =>
    intro cap score reason st rec h
    exact Or.inl h
  | cons c rest ih =>
    intro cap score reason st rec h
    rw [List.foldl_cons] at h
    rcases ih cap score reason _ rec h with hmem | hsc
    · unfold addUniqueStep at hmem
      by_cases h1 : cap ≤ st.2
      · rw [if_pos h1] at hmem
        exact Or.inl hmem
      · rw [if_neg h1] at hmem
        by_cases h2 : st.1.any (fun r => r.resource.id = c.id) = true
        · rw [if_pos h2] at hmem
          exact Or.inl hmem
        · rw [if_neg h2] at hmem
          rcases List.mem_append.1 hmem with hmem | hmem
          · exact Or.inl hmem
          · have heq : rec = { resource := c, recommendation_score := score,
                               recommendation_reason := reason } := by
              simpa using hmem
            subst heq
            exact Or.inr rfl
    · exact Or.inr hsc

/-- Id-nodup survives mapping into recommendations, sorting, and taking a
prefix. -/
theorem nodup_ids_take_sort (le : Resource → Resource → Bool) (l : List Resource)
    (n : Nat) (h : (l.map (fun r => r.id)).Nodup) :
    ((((stableSort le l).take n).map (fun r => r.id))).Nodup := by
  have hperm : ((stableSort le l).map (fun r => r.id)).Nodup :=
    (((stableSort_perm le l).map (fun r => r.id)).nodup_iff).2 h
  exact hperm.sublist ((List.take_sublist n (stableSort le l)).map (fun r => r.id))

/-- C7 (amended): cold-start output has no duplicate ids (when the
repository's resource ids are distinct), has at most `limit` entries, and
every entry comes from one of the three pools: display score 5.0 with
Beginner difficulty, 4.0 (highly rated), or 3.0 (recent).  The Beginner
and highly-rated pools have target size `max 1 (limit / 3)` each, but the
recency pool's target is the full remaining deficit
`limit - |selected so far|`, so a shortfall of the first two pools flows
into the recency pool (see the counterexample). -/
theorem cold_start_spec (db : DB) (user : User) (limit : Nat)
    (hids : (db.resources.map (fun r => r.id)).Nodup) :
    ((RecommendationService.get_cold_start_recommendations db user limit).map
        (fun rec => rec.resource.id)).Nodup ∧
      (RecommendationService.get_cold_start_recommendations db user limit).length ≤ limit ∧
      ∀ rec ∈ RecommendationService.get_cold_start_recommendations db user limit,
        (rec.recommendation_score = 5 ∧ rec.resource.difficulty = "Beginner") ∨
          rec.recommendation_score = 4 ∨ rec.recommendation_score = 3 := by
  unfold RecommendationService.get_cold_start_recommendations
  dsimp only
  have hfilter : ((db.resources.filter (fun r => r.difficulty = "Beginner")).map
      (fun r => r.id)).Nodup :=
    hids.sublist (List.Sublist.map (fun r => r.id)
      (List.filter_sublist db.resources))
  have h1 : ((((stableSort byRatingLikes (db.resources.filter
      (fun r => r.difficulty = "Beginner"))).take (max 1 (limit / 3))).map
        (fun c => ({ resource := c, recommendation_score := 5.0,
                     recommendation_reason := "Great for beginners" } : Recommendation))).map
      (fun rec => rec.resource.id)).Nodup := by
    rw [List.map_map]
    exact nodup_ids_take_sort byRatingLikes _ _ hfilter
  set recs1 := ((stableSort byRatingLikes (db.resources.filter
      (fun r => r.difficulty = "Beginner"))).take (max 1 (limit / 3))).map
    (fun c => ({ resource := c, recommendation_score := 5.0,
                 recommendation_reason := "Great for beginners" } : Recommendation)) with hrecs1
  set recs2 := addUniqueCourses recs1 ((stableSort byRatingLikes db.resources).take
    (max 1 (limit / 3) * 2)) (max 1 (limit / 3)) 4.0 "Highly rated by learners" with hrecs2
  have h2 : (recs2.map (fun r => r.resource.id)).Nodup :=
    addUnique_foldl_nodup _ _ _ _ _ h1
  by_cases hrem : 0 < limit - recs2.length
  · rw [if_pos hrem]
    set recs3 := addUniqueCourses recs2 ((stableSort byCreatedLikes db.resources).take
      ((limit - recs2.length) * 2)) (limit - recs2.length) 3.0 "Trending content" with hrecs3
    have h3 : (recs3.map (fun r => r.resource.id)).Nodup :=
      addUnique_foldl_nodup _ _ _ _ _ h2
    refine ⟨h3.sublist ((List.take_sublist _ _).map _), List.length_take_le _ _, ?_⟩
    intro rec hrec
    have hmem3 := List.mem_of_mem_take hrec
    rcases addUnique_foldl_mem _ _ _ _ _ rec hmem3 with hmem2 | hsc3
    · rcases addUnique_foldl_mem _ _ _ _ _ rec hmem2 with hmem1 | hsc2
      · obtain ⟨c, hc, hceq⟩ := List.mem_map.1 hmem1
        have hcB : c.difficulty = "Beginner" := by
          have := (stableSort_perm byRatingLikes _).mem_iff.1 (List.mem_of_mem_take hc)
          simpa using (List.mem_filter.1 this).2
        subst hceq
        exact Or.inl ⟨rfl, hcB⟩
      · exact Or.inr (Or.inl hsc2)
    · exact Or.inr (Or.inr hsc3)
  · rw [if_neg hrem]
    refine ⟨h2.sublist ((List.take_sublist _ _).map _), List.length_take_le _ _, ?_⟩
    intro rec hrec
    have hmem2 := List.mem_of_mem_take hrec
    rcases addUnique_foldl_mem _ _ _ _ _ rec hmem2 with hmem1 | hsc2
    · obtain ⟨c, hc, hceq⟩ := List.mem_map.1 hmem1
      have hcB : c.difficulty = "Beginner" := by
        have := (stableSort_perm byRatingLikes _).mem_iff.1 (List.mem_of_mem_take hc)
        simpa using (List.mem_filter.1 this).2
      subst hceq
      exact Or.inl ⟨rfl, hcB⟩
    · exact Or.inr (Or.inl hsc2)

/-- A profile-less user for exercising the cold-start path. -/
def anonUser : User :=
  { id := "u0", interests := [], skill_level := "Beginner", interactions := [] }

/-- Twelve distinct non-Beginner resources. -/
def mkColdRes (n : Nat) : Resource :=
  { id := "cs" ++ toString n, title := "T", description := "", type := "article",
    difficulty := "Intermediate", tags := [], category := "", likes := 0, views := 0,
    rating := 1, embedding := none, created_at := n }

/-- A repository with no Beginner-difficulty resources at all. -/
def c7db : DB :=
  { users := [], resources := (List.range 12).map mkColdRes, feedbacks := [],
    tasks := [], task_feedbacks := [] }

/-- C7 (counterexample): with an empty Beginner pool and `limit = 12`,
the claimed no-redistribution behaviour would allow at most
`2 * max 1 (12 / 3) = 8` entries (the two other pools' target shares),
but the recency stage fills the whole remaining deficit and the output
has 12 entries — the shortfall of the Beginner pool *is* redistributed. -/
theorem cold_start_redistributes_shortfall :
    (RecommendationService.get_cold_start_recommendations c7db anonUser 12).length = 12 ∧
      (c7db.resources.filter (fun r => r.difficulty = "Beginner")).length = 0 ∧
      2 * max 1 (12 / 3) < 12 := by
  refine ⟨by decide, by decide, by decide⟩

/-- C7 (witness): the amended theorem applied to a concrete repository. -/
theorem cold_start_spec_witness :
    ((RecommendationService.get_cold_start_recommendations c7db anonUser 12).map
        (fun rec => rec.resource.id)).Nodup ∧
      (RecommendationService.get_cold_start_recommendations c7db anonUser 12).length ≤ 12 :=
  ⟨(cold_start_spec c7db anonUser 12 (by decide)).1,
    (cold_start_spec c7db anonUser 12 (by decide)).2.1⟩

/-! ### C4: the task-recommendation score formula -/

theorem exceptBind_ok {α β : Type} (a : α) (f : α → Except Unit β) :
    (Except.ok a >>= f : Except Unit β) = f a := rfl

theorem exceptBind_error {α β : Type} (u : Unit) (f : α → Except Unit β) :
    (Except.error u >>= f : Except Unit β) = Except.error u := rfl

theorem exceptPure_eq {α : Type} (a : α) : (pure a : Except Unit α) = Except.ok a := rfl

/-- The specification's (§4.5, step 2) per-feedback term: the cosine
similarity of the candidate's embedding to a helpful feedback task's
embedding, defined exactly when the feedback is helpful and the task
exists with a non-empty embedding. -/
def helpfulSimilarity (db : DB) (task_embedding : List Rat)
    (f : TaskFeedback) : Option Rat :=
  if f.helpful then
    match db.tasks.find? (fun t => t.task_id = f.task_id) with
    | some similar_task =>
      match similar_task.embedding with
      | some e => if e ≠ [] then some (cosineSim task_embedding e) else none
      | none => none
    | none => none
  else none

/-- The task score as the specification (§4.5) states it:
`cosine(query, T) + 0.3 * Σ_H cosine(T, H) + 0.1·[skill match]`, the sum
ranging over the user's helpful feedback items `H` that have
embeddings. -/
def specTaskScore (db : DB) (u : User) (qe : List Rat) (t : Task) : Rat :=
  cosineSim qe (t.embedding.getD []) +
    0.3 * ((userFeedback db u).filterMap
      (helpfulSimilarity db (t.embedding.getD []))).sum +
    (if t.skill_level = u.skill_level then 0.1 else 0)

theorem boost_foldlM_ok (db : DB) (temb : List Rat) :
    ∀ (fdata : List TaskFeedback) (acc b : Rat),
      fdata.foldlM (boostStep db temb) acc = Except.ok b →
      b = acc + 0.3 * ((fdata.filterMap (helpfulSimilarity db temb)).sum) := by
  intro fdata
  induction fdata with
  | nil =>
    intro acc b h
    rw [List.foldlM_nil, exceptPure_eq] at h
    injection h with h
    subst h
    simp
  | cons f rest ih =>
    intro acc b h
    rw [List.foldlM_cons] at h
    by_cases hh : f.helpful
    · cases hfind : db.tasks.find? (fun t => t.task_id = f.task_id) with
      | none =>
        have hstep : boostStep db temb acc f = pure acc := by
          simp [boostStep, hh, hfind]
        rw [hstep, exceptPure_eq, exceptBind_ok] at h
        have hnone : helpfulSimilarity db temb f = none := by
          simp [helpfulSimilarity, hh, hfind]
        rw [List.filterMap_cons_none hnone]
        exact ih acc b h
      | some similar_task =>
        cases hemb : similar_task.embedding with
        | none =>
          have hstep : boostStep db temb acc f = pure acc := by
            simp [boostStep, hh, hfind, hemb]
          rw [hstep, exceptPure_eq, exceptBind_ok] at h
          have hnone : helpfulSimilarity db temb f = none := by
            simp [helpfulSimilarity, hh, hfind, hemb]
          rw [List.filterMap_cons_none hnone]
          exact ih acc b h
        | some e =>
          by_cases hne : e = []
          · have hstep : boostStep db temb acc f = pure acc := by
              simp [boostStep, hh, hfind, hemb, hne]
            rw [hstep, exceptPure_eq, exceptBind_ok] at h
            have hnone : helpfulSimilarity db temb f = none := by
              simp [helpfulSimilarity, hh, hfind, hemb, hne]
            rw [List.filterMap_cons_none hnone]
            exact ih acc b h
          · by_cases hlen : temb.length = e.length
            · have hstep : boostStep db temb acc f =
                  Except.ok (acc + cosineSim temb e * 0.3) := by
                simp [boostStep, hh, hfind, hemb, hne, cosineSimE, hlen,
                  exceptBind_ok, exceptPure_eq]
              rw [hstep, exceptBind_ok] at h
              have hsome : helpfulSimilarity db temb f = some (cosineSim temb e) := by
                simp [helpfulSimilarity, hh, hfind, hemb, hne]
              rw [List.filterMap_cons_some hsome]
              have hb := ih (acc + cosineSim temb e * 0.3) b h
              rw [hb, List.sum_cons]
              ring
            · have hstep : boostStep db temb acc f = Except.error () := by
                simp [boostStep, hh, hfind, hemb, hne, cosineSimE, hlen,
                  exceptBind_error]
              rw [hstep, exceptBind_error] at h
              cases h
    · have hh' : f.helpful = false := by simpa using hh
      have hstep : boostStep db temb acc f = pure acc := by
        simp [boostStep, hh']
      rw [hstep, exceptPure_eq, exceptBind_ok] at h
      have hnone : helpfulSimilarity db temb f = none := by
        simp [helpfulSimilarity, hh']
      rw [List.filterMap_cons_none hnone]
      exact ih acc b h

theorem taskScoreE_ok_eq (db : DB) (u : User) (qe : List Rat)
    (fdata : List TaskFeedback) (task : Task) (s : Rat)
    (h : taskScoreE db u qe fdata task = .ok s) :
    s = cosineSim qe (task.embedding.getD []) +
        0.3 * ((fdata.filterMap (helpfulSimilarity db (task.embedding.getD []))).sum) +
        (if task.skill_level = u.skill_level then 0.1 else 0) := by
  unfold taskScoreE at h
  dsimp only at h
  by_cases hlen : qe.length = (task.embedding.getD []).length
  · rw [show cosineSimE qe (task.embedding.getD []) =
        Except.ok (cosineSim qe (task.embedding.getD [])) by
      unfold cosineSimE
      rw [if_pos hlen], exceptBind_ok] at h
    cases hb : fdata.foldlM (boostStep db (task.embedding.getD [])) 0 with
    | error u2 =>
      rw [hb, exceptBind_error] at h
      cases h
    | ok boost =>
      rw [hb, exceptBind_ok, exceptPure_eq] at h
      injection h with h
      subst h
      have hboost := boost_foldlM_ok db (task.embedding.getD []) fdata 0 boost hb
      rw [hboost]
      ring
  · rw [show cosineSimE qe (task.embedding.getD []) = Except.error () by
      unfold cosineSimE
      rw [if_neg hlen], exceptBind_error] at h
    cases h

theorem scoreTasks_mem (db : DB) (u : User) (qe : List Rat)
    (fdata : List TaskFeedback) (completed : List String) :
    ∀ (ts : List Task) (p : Task × Rat), p ∈ scoreTasks db u qe fdata completed ts →
      taskScoreE db u qe fdata p.1 = .ok p.2 ∧ p.1.task_id ∉ completed := by
  intro ts
  induction ts with
  | nil =>
    intro p hp
    cases hp
  | cons t rest ih =>
    intro p hp
    unfold scoreTasks at hp
    by_cases hc : t.task_id ∈ completed
    · rw [if_pos hc] at hp
      exact ih p hp
    · rw [if_neg hc] at hp
      cases hs : taskScoreE db u qe fdata t with
      | error u2 =>
        rw [hs] at hp
        exact ih p hp
      | ok s =>
        rw [hs] at hp
        rcases List.mem_cons.1 hp with rfl | hp
        · exact ⟨hs, hc⟩
        · exact ih p hp

/-- C4 (confirmed): with the model available, every scored candidate task
(active, embedded, not in the user's feedback history) carries exactly
the score `cosine(query-from-interests, T) + 0.3·Σ_H cosine(T, H) +
0.1·[skill match]` over the user's helpful feedback items `H` with
non-empty embeddings, and the ML recommendations are sorted by this score
descending. -/
theorem task_recommendation_score_formula (svc : MLService)
    (encode : String → List Rat) (hmodel : svc.sentence_model = some encode)
    (db : DB) (u : User) :
    (∀ p ∈ taskScores db u (encode (interestQuery u)),
      p.2 = specTaskScore db u (encode (interestQuery u)) p.1) ∧
    (mlRecommendedTasks svc db u).Pairwise
      (fun a b => b.ml_score.getD 0 ≤ a.ml_score.getD 0) := by
  constructor
  · intro p hp
    unfold taskScores at hp
    obtain ⟨hok, _⟩ := scoreTasks_mem db u (encode (interestQuery u))
      (userFeedback db u) ((userFeedback db u).map (fun f => f.task_id)) _ p hp
    unfold specTaskScore
    exact taskScoreE_ok_eq db u (encode (interestQuery u)) (userFeedback db u) p.1 p.2 hok
  · unfold mlRecommendedTasks
    rw [hmodel]
    by_cases hemp : (db.tasks.filter (fun t => t.is_active && t.embedding.isSome)).isEmpty
    · simp [hemp]
    · simp only [hemp, Bool.false_eq_true, if_false]
      refine List.Pairwise.map _ ?_
        (List.Pairwise.sublist (List.take_sublist _ _)
          (pairwise_key_stableSort (fun p => p.2) _))
      intro a b hab
      simpa using hab

/-- A fresh candidate task, similar to the completed task `t2`. -/
def c4task : Task :=
  { task_id := "t1", title := "Lists", description := "", difficulty := "Easy",
    tags := "python", category := "Python", skill_level := "Beginner",
    is_active := true, embedding := some [1, 0] }

/-- A repository with the candidate `c4task` and a second task `t2` the
user already completed with helpful feedback. -/
def c4db : DB :=
  { users := [], resources := [], feedbacks := [],
    tasks := [c4task,
              { task_id := "t2", title := "Vars", description := "", difficulty := "Easy",
                tags := "python", category := "Python", skill_level := "Beginner",
                is_active := true, embedding := some [1, 0] }],
    task_feedbacks := [{ user := "u1", task_id := "t2", helpful := true,
                         difficulty_rating := some 3 }] }

/-- The user of `c4db`: has completed `t2` with helpful feedback. -/
def c4user : User :=
  { id := "u1", interests := ["python"], skill_level := "Beginner", interactions := [] }

/-- The model used on `c4db`: encodes every text to `[1, 0]`. -/
def c4svc : MLService := { sentence_model := some (fun _ => [1, 0]) }

/-- C4 (witness): the formula applied to the concrete repository: the
candidate `t1` scores `1 + 0.3·1 + 0.1 = 1.4` (similarity 1 to the
interest query, one helpful-feedback boost of `0.3·1`, skill match). -/
theorem task_recommendation_score_formula_witness :
    (1.4 : Rat) = specTaskScore c4db c4user [1, 0] c4task :=
  (task_recommendation_score_formula c4svc (fun _ => [1, 0]) rfl c4db c4user).1
    (c4task, 1.4) (by decide)

/-! ### C5: completed tasks and task recommendations -/

/-- C5 (amended): on the ML path, a task for which the user has already
submitted feedback (completed) never appears in the recommendations.
(The non-ML fallback strategies do *not* exclude completed tasks — see
the counterexample.) -/
theorem ml_recommendations_exclude_completed (svc : MLService) (db : DB) (u : User)
    (rec : TaskRec) (hrec : rec ∈ mlRecommendedTasks svc db u) :
    ∀ f ∈ db.task_feedbacks, f.user = u.id → f.task_id ≠ rec.task.task_id := by
  unfold mlRecommendedTasks at hrec
  cases hm : svc.sentence_model with
  | none =>
    rw [hm] at hrec
    cases hrec
  | some encode =>
    rw [hm] at hrec
    dsimp only at hrec
    by_cases hemp : (db.tasks.filter (fun t => t.is_active && t.embedding.isSome)).isEmpty
    · rw [if_pos hemp] at hrec
      cases hrec
    · rw [if_neg hemp] at hrec
      obtain ⟨p, hp, hpeq⟩ := List.mem_map.1 hrec
      have hpmem : p ∈ taskScores db u (encode (interestQuery u)) :=
        (stableSort_perm _ _).mem_iff.1 (List.mem_of_mem_take hp)
      have hnotc : p.1.task_id ∉ (userFeedback db u).map (fun f => f.task_id) := by
        unfold taskScores at hpmem
        exact (scoreTasks_mem db u (encode (interestQuery u)) (userFeedback db u)
          ((userFeedback db u).map (fun f => f.task_id)) _ p hpmem).2
      intro f hf hfu
      intro hid
      apply hnotc
      have hfmem : f ∈ userFeedback db u := by
        unfold userFeedback
        exact List.mem_filter.2 ⟨hf, by simpa using hfu⟩
      have htask : rec.task = p.1 := by rw [← hpeq]
      rw [← htask, ← hid]
      exact List.mem_map.2 ⟨f, hfmem, rfl⟩

/-- C5 (witness): the completed task `t2` of `c4db` differs from the task
of the ML recommendation produced there. -/
theorem ml_recommendations_exclude_completed_witness :
    ({ user := "u1", task_id := "t2", helpful := true,
       difficulty_rating := some 3 } : TaskFeedback).task_id ≠ c4task.task_id :=
  ml_recommendations_exclude_completed c4svc c4db c4user
    { task := c4task, completed := false, ml_score := some 1.4,
      recommendation_reason :=
        "ML-recommended based on your interests and learning patterns" }
    (by decide)
    { user := "u1", task_id := "t2", helpful := true, difficulty_rating := some 3 }
    (by decide) (by decide)

/-- A repository whose only task is active in the category matching the
user's interest, and already completed by the user. -/
def c5db : DB :=
  { users := [], resources := [], feedbacks := [],
    tasks := [{ task_id := "t1", title := "Syntax", description := "",
                difficulty := "Easy", tags := "python", category := "Python",
                skill_level := "Beginner", is_active := true, embedding := none }],
    task_feedbacks := [{ user := "u1", task_id := "t1", helpful := true,
                         difficulty_rating := some 3 }] }

/-- The requesting user of `c5db`. -/
def c5user : User :=
  { id := "u1", interests := ["Python"], skill_level := "Beginner",
    interactions := [] }

/-- C5 (counterexample): with the model unavailable the route falls back
to category matching, and the task the user already completed is returned
(flagged `completed`), refuting "never appears in that user's task
recommendations ... including the non-ML fallback strategies". -/
theorem fallback_returns_completed_task :
    (get_recommended_tasks noModelSvc c5db c5user).map
        (fun r => (r.task.task_id, r.completed)) = [("t1", true)] ∧
      (c5db.task_feedbacks.filter (fun f => f.user = c5user.id)).map
        (fun f => f.task_id) = ["t1"] := by
  refine ⟨by decide, by decide⟩

end LearnFlow
